import Mathlib

/-!
Model of `src/remote.go` (package kite): the RemoteKite call dispatcher with
its timeout/disconnect race, the callback-id hand-off and cleanup, the
response callback, the method-not-found handler, the token renewal loop and
the disconnect-signal lifecycle.

Go values are embedded as plain Lean data: `time.Duration` and `time.Time`
as `Int` (nanoseconds since an arbitrary origin), JSON documents as the
inductive `Json`, channels as explicit values describing what was sent on
them, and each `select` race as an explicit parameter naming the branch that
fired first.
-/

namespace Kite

/-- One second, in nanoseconds, mirroring Go's `time.Second`. -/
def Second : Int := 1000000000

/-- Model of `DefaultTellTimeout = 4 * time.Second` (src/remote.go line 21). -/
def DefaultTellTimeout : Int := 4 * Second

/-- Model of the retry backoff `const retryInterval = 10 * time.Second` inside
`renewTokenUntilDisconnect` (src/remote.go line 187). -/
def retryInterval : Int := 10 * Second

/-- Model of the `-30 * time.Second` lead used by `tokenRenewer` when computing
`renewTime` (src/remote.go line 173). -/
def renewalLeadTime : Int := 30 * Second

/-- Model of the kite `Error` struct as used throughout src/remote.go:
a type tag plus a message, e.g. `&Error{"sendError", err.Error()}`. -/
structure Error where
  type : String
  message : String
deriving DecidableEq, Repr

/-- JSON-like wire values carried in dnode messages. The `func` constructor
stands for a dnode callback reference (dnode marshals functions as callback
path markers); objects are association lists assumed to have distinct keys. -/
inductive Json where
  | null
  | boolVal (b : Bool)
  | num (n : Int)
  | str (s : String)
  | arr (elems : List Json)
  | obj (fields : List (String × Json))
  | func (id : Nat)

/-- Field lookup in a JSON object, as `encoding/json` resolves a struct field
or a map key. -/
def lookupField (fields : List (String × Json)) (k : String) : Option Json :=
  (fields.find? (fun p => p.1 == k)).map (fun p => p.2)

/-- Key-presence test on a decoded `map[string]interface{}`, as in
`_, ok := keys["result"]`. -/
def hasKey (fields : List (String × Json)) (k : String) : Bool :=
  fields.any (fun p => p.1 == k)

/-- Decoding of one JSON value into a Go `string` struct field:
an absent field or JSON `null` leaves the zero value, a string decodes,
anything else is a type error (`none`). -/
def unmarshalStringField : Option Json → Option String
  | none => some ""
  | some Json.null => some ""
  | some (Json.str s) => some s
  | some _ => none

/-- Modelled from the spec: decoding into `*kite.Error` (declared outside
src/, shape given by the spec's reply payload `error: { type, message }`).
JSON `null` leaves the pointer nil; an object fills the two string fields;
any other JSON value is a decode error. -/
def unmarshalKiteError : Json → Option (Option Error)
  | Json.null => some none
  | Json.obj fs =>
    match unmarshalStringField (lookupField fs "type"),
          unmarshalStringField (lookupField fs "message") with
    | some t, some m => some (some ⟨t, m⟩)
    | _, _ => none
  | _ => none

/-- The anonymous struct `{ Result *dnode.Partial; Err *Error }` that
`makeResponseCallback` unmarshals the single reply argument into
(src/remote.go lines 413-416). -/
structure RespBody where
  result : Option Json
  err : Option Error

/-- Decoding of the reply argument into `RespBody`, following
`encoding/json` semantics: `null` succeeds leaving both pointers nil, an
object fills the fields (a `result` value is stored raw in the Partial, a
`null` result leaves the pointer nil), any other value is a decode error. -/
def unmarshalRespBody : Json → Option RespBody
  | Json.null => some ⟨none, none⟩
  | Json.obj fs =>
    match (match lookupField fs "error" with
           | none => some none
           | some j => unmarshalKiteError j) with
    | none => none
    | some e =>
      some ⟨(match lookupField fs "result" with
             | none => none
             | some Json.null => none
             | some j => some j), e⟩
  | _ => none

/-- Decoding of the reply argument into `map[string]interface{}` for the
key-presence check (src/remote.go lines 449-450): `null` leaves the freshly
made map empty, an object yields its fields, anything else errors. -/
def unmarshalKeys : Json → Option (List (String × Json))
  | Json.null => some []
  | Json.obj fs => some fs
  | _ => none

/-- The `response` struct returned through Tell/Go channels
(src/remote.go lines 297-300). -/
structure Response where
  result : Option Json
  err : Option Error

/-- Model of the body of the closure built by `makeResponseCallback`
(src/remote.go lines 410-461), as a pure function from the callback's
argument list to the single response the deferred block sends on `doneChan`.
The error from the second Unmarshal into the map is not checked in the
source, so a failed map decode leaves the map empty here as well. The
invalid-response messages for the first two branches stand in for the
underlying dnode/json error strings. -/
def responseCallback (args : List Json) : Response :=
  match args with
  | [a] =>
    match unmarshalRespBody a with
    | none => ⟨none, some ⟨"invalidResponse", "cannot unmarshal response argument"⟩⟩
    | some body =>
      let keys := (unmarshalKeys a).getD []
      if hasKey keys "result" || hasKey keys "error" then
        ⟨body.result, body.err⟩
      else
        ⟨body.result, some ⟨"invalidResponse", "Server has sent invalid response arguments"⟩⟩
  | _ => ⟨none, some ⟨"invalidResponse", "invalid number of arguments"⟩⟩

/-- Decimal digit loop of `strconv.ParseUint` over the characters of the
input: every character must be a decimal digit, otherwise a syntax error
(`none`). -/
def parseDecimal (cs : List Char) (acc : Nat) : Option Nat :=
  match cs with
  | [] => some acc
  | c :: rest =>
    if 48 ≤ c.toNat ∧ c.toNat ≤ 57 then
      parseDecimal rest (acc * 10 + (c.toNat - 48))
    else
      none

/-- Model of `strconv.ParseUint(id, 10, 64)` with the returned error ignored,
as in `sendCallbackID`: a syntax error (empty input or a non-digit) leaves
the zero value, an out-of-range value yields the maximum uint64. -/
def parseUint64 (s : String) : Nat :=
  if s.data.isEmpty then 0
  else
    match parseDecimal s.data 0 with
    | none => 0
    | some n => if n < 2 ^ 64 then n else 2 ^ 64 - 1

/-- One step of the running-maximum fold in `sendCallbackID`
(src/remote.go lines 394-399). -/
def maxStep (mx : Nat) (id : String) : Nat :=
  if parseUint64 id > mx then parseUint64 id else mx

/-- Model of `sendCallbackID` (src/remote.go lines 389-405): given the keys
of the callbacks map returned by `client.Call`, either the maximum parsed id
is sent on the hand-off channel (`some`), or the channel is closed (`none`)
when no callbacks were minted. -/
def sendCallbackID (callbacks : List String) : Option Nat :=
  if callbacks.length > 0 then
    some (callbacks.foldl maxStep 0)
  else
    none

/-- Which branch of the three-way `select` inside `send`'s goroutine fires
first (src/remote.go lines 368-383): the response callback delivering on
`doneChan` (carrying the raw argument list the peer invoked it with), the
disconnect channel, or the timer. -/
inductive RaceWinner where
  | reply (args : List Json)
  | disconnected
  | timedOut

/-- Observable effects of one `send` (src/remote.go lines 338-386):
the values written to `responseChan`, the timeout duration armed by the
race goroutine (`none` when the goroutine was never spawned), and the ids
passed to `client.RemoveCallback` by the dispatcher or by the response
callback. -/
structure SendOutcome where
  responses : List Response
  armedTimeout : Option Int
  removedCallbacks : List Nat

/-- The response written when `client.Call` fails synchronously
(src/remote.go lines 354-360). -/
def sendErrorResponse (msg : String) : Response :=
  ⟨none, some ⟨"sendError", msg⟩⟩

/-- The response written when the disconnect channel fires first
(src/remote.go line 373). -/
def disconnectResponse : Response :=
  ⟨none, some ⟨"disconnect", "Remote kite has disconnected"⟩⟩

/-- The response written when the timer fires first (src/remote.go line 375). -/
def timeoutResponse : Response :=
  ⟨none, some ⟨"timeout", "Did not get the response in allowed time"⟩⟩

/-- Model of `send` (src/remote.go lines 338-386). `callErr` is the error
returned synchronously by `client.Call` (with `callbacks` the keys of the
returned callbacks map when it succeeds), and `winner` names the branch of
the race that fires first. On a synchronous call error the sendError
response is written and `send` returns before arming the race or touching
the callback hand-off. Otherwise a zero `timeout` is replaced by the
connection's `tellTimeout`, the hand-off channel carries
`sendCallbackID callbacks`, and the reply and timeout branches consume it
to remove the callback (the reply branch via `makeResponseCallback`, the
timeout branch in the goroutine); a closed hand-off (`none`) removes
nothing. -/
def send (tellTimeout timeout : Int) (callErr : Option String)
    (callbacks : List String) (winner : RaceWinner) : SendOutcome :=
  match callErr with
  | some e => ⟨[sendErrorResponse e], none, []⟩
  | none =>
    let effTimeout := if timeout = 0 then tellTimeout else timeout
    let rcb := sendCallbackID callbacks
    match winner with
    | RaceWinner.reply args => ⟨[responseCallback args], some effTimeout, rcb.toList⟩
    | RaceWinner.disconnected => ⟨[disconnectResponse], some effTimeout, []⟩
    | RaceWinner.timedOut => ⟨[timeoutResponse], some effTimeout, rcb.toList⟩

/-- Model of the `Authentication` struct (src/remote.go lines 289-294);
`validUntil` is the optional expiry instant. -/
structure Authentication where
  type : String
  key : String
  validUntil : Option Int
deriving DecidableEq, Repr

/-- The fields of `RemoteKite` relevant to the claims: the shared credential
and the default Tell timeout. -/
structure RemoteKiteModel where
  authentication : Authentication
  tellTimeout : Int
deriving DecidableEq, Repr

/-- Model of `SetTellTimeout` (src/remote.go line 142). -/
def SetTellTimeout (r : RemoteKiteModel) (d : Int) : RemoteKiteModel :=
  { r with tellTimeout := d }

/-- Model of the credential/timeout initialization in `NewRemoteKite`
(src/remote.go lines 51-60): the constructor calls
`SetTellTimeout DefaultTellTimeout` on the fresh instance. -/
def NewRemoteKite (auth : Authentication) : RemoteKiteModel :=
  SetTellTimeout { authentication := auth, tellTimeout := 0 } DefaultTellTimeout

/-- Model of the `OnConnect` handler registered in `NewRemoteKite`
(src/remote.go lines 77-84): the `tokenRenewer` goroutine is started iff
`Authentication.validUntil` is non-nil. -/
def startsTokenRenewer (auth : Authentication) : Bool :=
  auth.validUntil.isSome

/-- Model of `GoWithTimeout` (src/remote.go lines 326-335): it makes the
buffered response channel and delegates to `send` with the connection's
`tellTimeout` available for the zero-timeout substitution. -/
def GoWithTimeout (r : RemoteKiteModel) (timeout : Int) (callErr : Option String)
    (callbacks : List String) (winner : RaceWinner) : SendOutcome :=
  send r.tellTimeout timeout callErr callbacks winner

/-- Model of `Go` (src/remote.go lines 319-321): `GoWithTimeout` with a zero
timeout. -/
def Go (r : RemoteKiteModel) (callErr : Option String)
    (callbacks : List String) (winner : RaceWinner) : SendOutcome :=
  GoWithTimeout r 0 callErr callbacks winner

/-- Model of `TellWithTimeout` (src/remote.go lines 312-315): it receives the
single response from the channel returned by `GoWithTimeout` and returns its
result/error pair. -/
def TellWithTimeout (r : RemoteKiteModel) (timeout : Int) (callErr : Option String)
    (callbacks : List String) (winner : RaceWinner) : Option Json × Option Error :=
  match (GoWithTimeout r timeout callErr callbacks winner).responses with
  | resp :: _ => (resp.result, resp.err)
  | [] => (none, none)

/-- Model of `Tell` (src/remote.go lines 305-307): `TellWithTimeout` with a
zero timeout. -/
def Tell (r : RemoteKiteModel) (callErr : Option String)
    (callbacks : List String) (winner : RaceWinner) : Option Json × Option Error :=
  TellWithTimeout r 0 callErr callbacks winner

/-- JWT claim values as `jwt-go` produces them from `encoding/json`:
JSON numbers decode to `float64` (embedded here as `num`), strings to
`str`, everything else (and a missing key, via the nil interface) fails the
`.(float64)` type assertion. -/
inductive ClaimVal where
  | num (n : Int)
  | str (s : String)
  | other
deriving DecidableEq, Repr

/-- A parsed JWT token: its claims map. -/
structure Token where
  claims : List (String × ClaimVal)
deriving DecidableEq, Repr

/-- Claims-map lookup; a missing key is the nil interface value. -/
def lookupClaim (cs : List (String × ClaimVal)) (k : String) : Option ClaimVal :=
  (cs.find? (fun p => p.1 == k)).map (fun p => p.2)

/-- How one call to `renewToken` ends: normal return nil, normal return of
an error, or a runtime panic from the unchecked `.(float64)` assertion. -/
inductive RenewOutcome where
  | ok
  | errMsg (msg : String)
  | panicked
deriving DecidableEq, Repr

/-- State after a `renewToken` call: the (possibly updated) value of
`r.Authentication`, and how the call ended. -/
structure RenewResultState where
  auth : Authentication
  outcome : RenewOutcome
deriving DecidableEq, Repr

/-- Model of `renewToken` (src/remote.go lines 211-228). `getTokenResult` is
the outcome of `Kontrol.GetToken` and `parse` the outcome of `jwt.Parse`
with the trusted-key resolver. On a GetToken error or a parse error the
function returns early with the authentication untouched; the `exp` claim
is then read through an unchecked `float64` type assertion, which panics
when the claim is absent or not a number; only after that do the two
assignments update `Key` and `validUntil` together. -/
def renewToken (auth : Authentication) (getTokenResult : Except String String)
    (parse : String → Except String Token) : RenewResultState :=
  match getTokenResult with
  | Except.error e => ⟨auth, RenewOutcome.errMsg e⟩
  | Except.ok tokenString =>
    match parse tokenString with
    | Except.error _ => ⟨auth, RenewOutcome.errMsg "Cannot parse token"⟩
    | Except.ok token =>
      match lookupClaim token.claims "exp" with
      | some (ClaimVal.num n) =>
        ⟨{ auth with key := tokenString, validUntil := some n }, RenewOutcome.ok⟩
      | _ => ⟨auth, RenewOutcome.panicked⟩

/-- How a run of the renewal loop ends: a successful renewal, termination
because the disconnect channel fired, or still running when the fuel bound
was reached. -/
inductive LoopResult where
  | renewed
  | disconnected
  | running
deriving DecidableEq, Repr

/-- Trace of one entry into the renewal machinery: the instants at which
`renewToken` was attempted, in order, and how the run ended. -/
structure RenewTrace where
  attempts : List Int
  result : LoopResult
deriving DecidableEq, Repr

/-- Model of the retry loop inside `renewTokenUntilDisconnect`
(src/remote.go lines 193-206). `renew n` tells whether the n-th overall
`renewToken` attempt succeeds (the first attempt, before the loop, is
attempt 0, so retry k is attempt k+1); `race k` tells whether the k-th
retry `select` is won by the 10-second timer (`true`) or by the disconnect
channel (`false`); `t0` is the instant the enclosing function was entered;
`fuel` bounds the number of loop iterations modelled. -/
def renewRetryLoop (renew race : Nat → Bool) (t0 : Int) : Nat → Nat → RenewTrace
  | _, 0 => ⟨[], LoopResult.running⟩
  | k, fuel + 1 =>
    if race k then
      if renew (k + 1) then
        ⟨[t0 + retryInterval * ((k + 1 : Nat) : Int)], LoopResult.renewed⟩
      else
        let rest := renewRetryLoop renew race t0 (k + 1) fuel
        ⟨(t0 + retryInterval * ((k + 1 : Nat) : Int)) :: rest.attempts, rest.result⟩
    else
      ⟨[], LoopResult.disconnected⟩

/-- Model of `renewTokenUntilDisconnect` (src/remote.go lines 186-209),
entered at instant `t0`: one unconditional `renewToken` attempt, then the
retry loop racing the 10-second timer against disconnect. -/
def renewTokenUntilDisconnect (renew race : Nat → Bool) (t0 : Int) (fuel : Nat) : RenewTrace :=
  if renew 0 then
    ⟨[t0], LoopResult.renewed⟩
  else
    let rest := renewRetryLoop renew race t0 0 fuel
    ⟨t0 :: rest.attempts, rest.result⟩

/-- Model of one iteration of `tokenRenewer` (src/remote.go lines 170-183)
for a credential expiring at `validUntil`: the outer `select` races the
timer set for `validUntil - 30s` against the disconnect channel
(`outerTimerWins` names the winner); on timer it enters
`renewTokenUntilDisconnect` at that instant, on disconnect it returns
having attempted nothing. -/
def tokenRenewer (validUntil : Int) (outerTimerWins : Bool)
    (renew race : Nat → Bool) (fuel : Nat) : RenewTrace :=
  if outerTimerWins then
    renewTokenUntilDisconnect renew race (validUntil - renewalLeadTime) fuel
  else
    ⟨[], LoopResult.disconnected⟩

/-- The part of the `callOptions` envelope that `onError` consults: whether
a response continuation is present (and which callback it references). -/
structure CallOptions where
  responseCallback : Option Nat
deriving DecidableEq, Repr

/-- Modelled from the spec: decoding the first dnode argument into the
call-options envelope (`e.Args[0].Unmarshal(&options)`; the `Partial`
unmarshaller lives in the dnode package, outside src/). Per the spec the
first argument must decode into the envelope shape: a JSON object decodes,
with the continuation present exactly when the `responseCallback` field is
a callback reference; JSON `null` decodes leaving every field at its zero
value; any other document fails to decode. -/
def decodeCallOptions : Json → Option CallOptions
  | Json.null => some ⟨none⟩
  | Json.obj fs =>
    match lookupField fs "responseCallback" with
    | none => some ⟨none⟩
    | some Json.null => some ⟨none⟩
    | some (Json.func i) => some ⟨some i⟩
    | some _ => none
  | _ => none

/-- The errors the dnode layer can hand to the `onError` wrapper; only
`MethodNotFoundError` (carrying the method name, the raw argument list and
its rendered message) is handled by the switch. -/
inductive DnodeError where
  | methodNotFoundErr (method : String) (args : List Json) (message : String)
  | otherErr (message : String)

/-- Model of `onError` (src/remote.go lines 97-117): for a
MethodNotFoundError with at least one argument whose envelope decodes and
carries a response continuation, exactly one reply is sent through that
continuation with a nil result and a `methodNotFound` error (the
`errorForSending` wrapper, defined outside src/, only adapts the error for
marshalling); in every other case nothing is sent. The returned pair is
(callback id invoked, reply payload). -/
def onError : DnodeError → Option (Nat × Response)
  | DnodeError.methodNotFoundErr _ args msg =>
    match args with
    | [] => none
    | a :: _ =>
      match decodeCallOptions a with
      | none => none
      | some opts =>
        match opts.responseCallback with
        | none => none
        | some id => some (id, ⟨none, some ⟨"methodNotFound", msg⟩⟩)
  | DnodeError.otherErr _ => none

/-- Connection lifecycle events acting on the disconnect-signal state. -/
inductive ConnEvent where
  | connect
  | disconnect
deriving DecidableEq, Repr

/-- State of the disconnect broadcast channel of one RemoteKite: a supply
counter for fresh channel identities, the identity currently stored in
`r.disconnect`, and the identities of channels that have been closed
(i.e. whose disconnect broadcast has fired). -/
structure DisconnectState where
  nextId : Nat
  current : Nat
  closed : List Nat
deriving DecidableEq, Repr

/-- The state set up by `NewRemoteKite` (src/remote.go line 58):
one fresh channel, nothing closed yet. -/
def initDisconnectState : DisconnectState :=
  ⟨1, 0, []⟩

/-- Model of how the handlers registered in `NewRemoteKite` act on the
disconnect channel (src/remote.go lines 77-92): the OnConnect handler does
not touch it; the OnDisconnect handler, under its mutex, closes the current
channel and replaces it with a fresh one. -/
def stepConn (s : DisconnectState) : ConnEvent → DisconnectState
  | ConnEvent.connect => s
  | ConnEvent.disconnect => ⟨s.nextId + 1, s.nextId, s.current :: s.closed⟩

/-- The disconnect-signal state after a sequence of connection events,
starting from the state `NewRemoteKite` sets up. -/
def runConn (events : List ConnEvent) : DisconnectState :=
  events.foldl stepConn initDisconnectState

/-- Invariant of the disconnect-signal state machine: the current channel is
newer than every closed channel, and the supply counter is ahead of the
current channel. -/
def DisconnectInv (s : DisconnectState) : Prop :=
  s.current < s.nextId ∧ ∀ c ∈ s.closed, c < s.current

/-! ## Theorems -/

theorem foldlMaxStep_ge_init (l : List String) (init : Nat) :
    init ≤ l.foldl maxStep init := by
  induction l generalizing init with
  | nil => simp
  | cons a t ih =>
    simp only [List.foldl_cons]
    refine le_trans ?_ (ih (maxStep init a))
    unfold maxStep
    split <;> omega

theorem foldlMaxStep_ge_mem (l : List String) (k : String) :
    ∀ init, k ∈ l → parseUint64 k ≤ l.foldl maxStep init := by
  induction l with
  | nil => intro init h; cases h
  | cons a t ih =>
    intro init h
    simp only [List.foldl_cons]
    rcases List.mem_cons.mp h with h | h
    · subst h
      refine le_trans ?_ (foldlMaxStep_ge_init t (maxStep init k))
      unfold maxStep
      split <;> omega
    · exact ih _ h

theorem foldlMaxStep_le (l : List String) (m : Nat)
    (hall : ∀ k ∈ l, parseUint64 k ≤ m) :
    ∀ init, init ≤ m → l.foldl maxStep init ≤ m := by
  induction l with
  | nil => intro init h; simpa using h
  | cons a t ih =>
    intro init h
    simp only [List.foldl_cons]
    refine ih (fun k hk => hall k (List.mem_cons_of_mem _ hk)) _ ?_
    have := hall a (List.mem_cons_self _ _)
    unfold maxStep
    split <;> omega

/-- C1: for every dispatched call (Go/GoWithTimeout/Tell/TellWithTimeout),
exactly one outcome is delivered to the caller on the response channel:
the reply resolution produced by the response callback, or exactly one of
the sendError, disconnect and timeout errors — never zero outcomes and
never more than one, and the four cases are mutually exclusive by the
conditions under which they fire. -/
theorem c1_dispatch_exactly_once (tt t : Int) (ce : Option String)
    (cbs : List String) (w : RaceWinner) (r : RemoteKiteModel) :
    (send tt t ce cbs w).responses.length = 1 ∧
    ((∃ e, ce = some e ∧ (send tt t ce cbs w).responses = [sendErrorResponse e]) ∨
     (ce = none ∧ ∃ args, w = RaceWinner.reply args ∧
        (send tt t ce cbs w).responses = [responseCallback args]) ∨
     (ce = none ∧ w = RaceWinner.disconnected ∧
        (send tt t ce cbs w).responses = [disconnectResponse]) ∨
     (ce = none ∧ w = RaceWinner.timedOut ∧
        (send tt t ce cbs w).responses = [timeoutResponse])) ∧
    GoWithTimeout r t ce cbs w = send r.tellTimeout t ce cbs w ∧
    Go r ce cbs w = GoWithTimeout r 0 ce cbs w ∧
    Tell r ce cbs w = TellWithTimeout r 0 ce cbs w ∧
    (∀ resp, (GoWithTimeout r t ce cbs w).responses = [resp] →
      TellWithTimeout r t ce cbs w = (resp.result, resp.err)) := by
  refine ⟨?_, ?_, rfl, rfl, rfl, ?_⟩
  · cases ce <;> cases w <;> simp [send]
  · cases ce with
    | some e => exact Or.inl ⟨e, rfl, rfl⟩
    | none =>
      cases w with
      | reply args => exact Or.inr (Or.inl ⟨rfl, args, rfl, rfl⟩)
      | disconnected => exact Or.inr (Or.inr (Or.inl ⟨rfl, rfl, rfl⟩))
      | timedOut => exact Or.inr (Or.inr (Or.inr ⟨rfl, rfl, rfl⟩))
  · intro resp h
    simp [TellWithTimeout, h]

theorem c1_witness :
    (send 5 0 none ["1"] RaceWinner.disconnected).responses.length = 1 :=
  (c1_dispatch_exactly_once 5 0 none ["1"] RaceWinner.disconnected
    ⟨⟨"token", "k", none⟩, 5⟩).1

/-- C7: dispatching with timeout 0 arms the connection's configured
`tellTimeout` for the reply race, and a freshly created RemoteKite's
configured default is `DefaultTellTimeout = 4` seconds. -/
theorem c7_zero_timeout_uses_default (auth : Authentication) (tt : Int)
    (cbs : List String) (w : RaceWinner) :
    DefaultTellTimeout = 4 * Second ∧
    (NewRemoteKite auth).tellTimeout = 4 * Second ∧
    (send tt 0 none cbs w).armedTimeout = some tt ∧
    (GoWithTimeout (NewRemoteKite auth) 0 none cbs w).armedTimeout =
      some (4 * Second) := by
  refine ⟨rfl, rfl, ?_, ?_⟩ <;>
    cases w <;>
      simp [send, GoWithTimeout, NewRemoteKite, SetTellTimeout, DefaultTellTimeout]

/-- C8: when `client.Call` rejects the call synchronously, the caller
receives exactly one sendError response, the timeout race is never armed,
and the dispatcher performs no callback-registry removal for that call. -/
theorem c8_send_error_short_circuit (tt t : Int) (e : String)
    (cbs : List String) (w : RaceWinner) :
    send tt t (some e) cbs w = ⟨[sendErrorResponse e], none, []⟩ ∧
    (sendErrorResponse e).err = some ⟨"sendError", e⟩ :=
  ⟨rfl, rfl⟩

/-- C2: the identifier handed to the dispatcher's cleanup hand-off channel
by `sendCallbackID` — the one the timeout branch and the response callback
remove from the registry — is the numerically maximum identifier among all
identifiers returned by `client.Call`. That this maximum is the key of the
top-level response continuation is decided by the dnode package, which is
not under src/; it is modelled from the spec by the hypotheses: continuation
identifiers are assigned monotonically within one call and the top-level
response continuation, registered last, carries the largest one (`ktop`). -/
theorem c2_cleanup_id_is_max_top_level (callbacks : List String) (ktop : String)
    (hmem : ktop ∈ callbacks)
    (hmax : ∀ k ∈ callbacks, parseUint64 k ≤ parseUint64 ktop) :
    sendCallbackID callbacks = some (parseUint64 ktop) ∧
    (∀ tt t args,
      (send tt t none callbacks (RaceWinner.reply args)).removedCallbacks =
        [parseUint64 ktop]) ∧
    (∀ tt t,
      (send tt t none callbacks RaceWinner.timedOut).removedCallbacks =
        [parseUint64 ktop]) := by
  have hlen : callbacks.length > 0 := by
    cases callbacks with
    | nil => cases hmem
    | cons a t => simp
  have hfold : callbacks.foldl maxStep 0 = parseUint64 ktop :=
    le_antisymm (foldlMaxStep_le callbacks _ hmax 0 (Nat.zero_le _))
      (foldlMaxStep_ge_mem callbacks ktop 0 hmem)
  have hid : sendCallbackID callbacks = some (parseUint64 ktop) := by
    unfold sendCallbackID
    rw [if_pos hlen, hfold]
  refine ⟨hid, ?_, ?_⟩
  · intro tt t args
    simp [send, hid]
  · intro tt t
    simp [send, hid]

theorem c2_witness :
    sendCallbackID ["1", "3", "2"] = some (parseUint64 "3") :=
  (c2_cleanup_id_is_max_top_level ["1", "3", "2"] "3" (by decide) (by decide)).1

theorem disconnectInv_step (s : DisconnectState) (e : ConnEvent)
    (h : DisconnectInv s) : DisconnectInv (stepConn s e) := by
  cases e with
  | connect => exact h
  | disconnect =>
    obtain ⟨h1, h2⟩ := h
    refine ⟨Nat.lt_succ_self _, ?_⟩
    intro c hc
    rcases List.mem_cons.mp hc with rfl | hc
    · exact h1
    · exact lt_trans (h2 c hc) h1

theorem disconnectInv_foldl (tr : List ConnEvent) :
    ∀ s, DisconnectInv s → DisconnectInv (tr.foldl stepConn s) := by
  induction tr with
  | nil => intro s h; exact h
  | cons e t ih =>
    intro s h
    simp only [List.foldl_cons]
    exact ih _ (disconnectInv_step s e h)

theorem disconnectState_le_foldl (tr : List ConnEvent) :
    ∀ s, DisconnectInv s →
      s.current ≤ (tr.foldl stepConn s).current ∧
      s.nextId ≤ (tr.foldl stepConn s).nextId := by
  induction tr with
  | nil => intro s _; exact ⟨le_refl _, le_refl _⟩
  | cons e t ih =>
    intro s hinv
    simp only [List.foldl_cons]
    have hrest := ih (stepConn s e) (disconnectInv_step s e hinv)
    have hs : s.current ≤ (stepConn s e).current ∧
        s.nextId ≤ (stepConn s e).nextId := by
      cases e with
      | connect => exact ⟨le_refl _, le_refl _⟩
      | disconnect => exact ⟨le_of_lt hinv.1, Nat.le_succ _⟩
    exact ⟨le_trans hs.1 hrest.1, le_trans hs.2 hrest.2⟩

/-- C6: a waiter of the current connection epoch never observes a disconnect
signal of a previous epoch: after any sequence of connect/disconnect events
the channel currently stored in `r.disconnect` has never been closed, and
across every disconnect (hence into every reconnect epoch) the stored
channel is strictly fresher than the one the previous epoch used. -/
theorem c6_epoch_isolation (tr t1 t2 : List ConnEvent) :
    (runConn tr).current ∉ (runConn tr).closed ∧
    (tr = t1 ++ ConnEvent.disconnect :: t2 →
      (runConn t1).current < (runConn tr).current) := by
  have hinit : DisconnectInv initDisconnectState := by
    refine ⟨Nat.lt_succ_self 0, ?_⟩
    intro c hc
    cases hc
  constructor
  · have h := disconnectInv_foldl tr initDisconnectState hinit
    intro hmem
    exact lt_irrefl _ (h.2 _ hmem)
  · intro heq
    subst heq
    have hinv1 : DisconnectInv (runConn t1) :=
      disconnectInv_foldl t1 initDisconnectState hinit
    have hstep : (runConn t1).current <
        (stepConn (runConn t1) ConnEvent.disconnect).current := hinv1.1
    have hrest := disconnectState_le_foldl t2
      (stepConn (runConn t1) ConnEvent.disconnect)
      (disconnectInv_step _ _ hinv1)
    have hfold : runConn (t1 ++ ConnEvent.disconnect :: t2) =
        t2.foldl stepConn (stepConn (runConn t1) ConnEvent.disconnect) := by
      simp [runConn, List.foldl_append]
    rw [hfold]
    exact lt_of_lt_of_le hstep hrest.1

theorem c6_witness :
    (runConn [ConnEvent.connect]).current <
      (runConn [ConnEvent.connect, ConnEvent.disconnect, ConnEvent.connect]).current :=
  (c6_epoch_isolation
    [ConnEvent.connect, ConnEvent.disconnect, ConnEvent.connect]
    [ConnEvent.connect] [ConnEvent.connect]).2 rfl

/-- C4: a reply delivered to the response continuation that is not exactly
one argument, or whose single argument fails to unmarshal, or unmarshals
but contains neither a "result" key nor an "error" key, resolves the
waiting call with an error of type `invalidResponse` — the callback always
delivers exactly one response, so the call neither hangs nor succeeds on
such input. -/
theorem c4_invalid_reply_resolves (args : List Json) :
    (args.length ≠ 1 →
      ∃ m, (responseCallback args).err = some ⟨"invalidResponse", m⟩) ∧
    (∀ a, args = [a] → unmarshalRespBody a = none →
      ∃ m, (responseCallback args).err = some ⟨"invalidResponse", m⟩) ∧
    (∀ a body, args = [a] → unmarshalRespBody a = some body →
      hasKey ((unmarshalKeys a).getD []) "result" = false →
      hasKey ((unmarshalKeys a).getD []) "error" = false →
      (responseCallback args).err =
        some ⟨"invalidResponse", "Server has sent invalid response arguments"⟩) := by
  refine ⟨?_, ?_, ?_⟩
  · intro hlen
    cases args with
    | nil => exact ⟨_, rfl⟩
    | cons a t =>
      cases t with
      | nil => simp at hlen
      | cons b t2 => exact ⟨_, rfl⟩
  · intro a ha hdec
    subst ha
    simp only [responseCallback, hdec]
    exact ⟨_, rfl⟩
  · intro a body ha hbody h1 h2
    subst ha
    simp only [responseCallback, hbody, h1, h2, Bool.or_self, Bool.false_eq_true,
      if_false]

theorem c4_witness :
    ∃ m, (responseCallback []).err = some ⟨"invalidResponse", m⟩ :=
  (c4_invalid_reply_resolves []).1 (by decide)

/-- C5: an inbound invocation of an unregistered method whose first argument
decodes into the call-options envelope with a present response continuation
makes `onError` send exactly one reply through that continuation, carrying a
structured error of type `methodNotFound`; with an empty argument list, an
undecodable first argument, or an absent continuation, no reply is sent. -/
theorem c5_method_not_found_reply (method msg : String) (args : List Json) :
    (args = [] → onError (DnodeError.methodNotFoundErr method args msg) = none) ∧
    (∀ a rest, args = a :: rest → decodeCallOptions a = none →
      onError (DnodeError.methodNotFoundErr method args msg) = none) ∧
    (∀ a rest opts, args = a :: rest → decodeCallOptions a = some opts →
      opts.responseCallback = none →
      onError (DnodeError.methodNotFoundErr method args msg) = none) ∧
    (∀ a rest opts id, args = a :: rest → decodeCallOptions a = some opts →
      opts.responseCallback = some id →
      onError (DnodeError.methodNotFoundErr method args msg) =
        some (id, ⟨none, some ⟨"methodNotFound", msg⟩⟩)) := by
  refine ⟨?_, ?_, ?_, ?_⟩
  · rintro rfl
    rfl
  · rintro a rest rfl hdec
    simp only [onError, hdec]
  · rintro a rest opts rfl hdec hcb
    simp only [onError, hdec, hcb]
  · rintro a rest opts id rfl hdec hcb
    simp only [onError, hdec, hcb]

theorem c5_witness :
    onError (DnodeError.methodNotFoundErr "add"
      [Json.obj [("responseCallback", Json.func 7)]] "method add not found") =
      some (7, ⟨none, some ⟨"methodNotFound", "method add not found"⟩⟩) :=
  (c5_method_not_found_reply "add" "method add not found"
    [Json.obj [("responseCallback", Json.func 7)]]).2.2.2
    (Json.obj [("responseCallback", Json.func 7)]) [] ⟨some 7⟩ 7 rfl rfl rfl

/-- C9: when `renewToken` fails — the credential issuer errors or the token
string does not parse (and likewise when the exp assertion panics) — the
Authentication value is left completely unchanged; on the successful path
Key and validUntil are updated together from the same parsed token, and
Type is never touched. -/
theorem c9_renew_failure_preserves_auth (auth : Authentication)
    (g : Except String String) (p : String → Except String Token) :
    ((renewToken auth g p).outcome ≠ RenewOutcome.ok →
      (renewToken auth g p).auth = auth) ∧
    ((renewToken auth g p).outcome = RenewOutcome.ok →
      ∃ ts tok n, g = Except.ok ts ∧ p ts = Except.ok tok ∧
        lookupClaim tok.claims "exp" = some (ClaimVal.num n) ∧
        (renewToken auth g p).auth =
          { auth with key := ts, validUntil := some n }) := by
  cases g with
  | error e => exact ⟨fun _ => rfl, by simp [renewToken]⟩
  | ok ts =>
    cases hp : p ts with
    | error e =>
      refine ⟨fun _ => ?_, ?_⟩
      · simp [renewToken, hp]
      · simp [renewToken, hp]
    | ok tok =>
      cases hc : lookupClaim tok.claims "exp" with
      | none =>
        refine ⟨fun _ => ?_, ?_⟩
        · simp [renewToken, hp, hc]
        · simp [renewToken, hp, hc]
      | some cv =>
        cases cv with
        | num n =>
          refine ⟨fun h => absurd ?_ h, fun _ => ⟨ts, tok, n, rfl, hp, hc, ?_⟩⟩
          · simp [renewToken, hp, hc]
          · simp [renewToken, hp, hc]
        | str s =>
          refine ⟨fun _ => ?_, ?_⟩
          · simp [renewToken, hp, hc]
          · simp [renewToken, hp, hc]
        | other =>
          refine ⟨fun _ => ?_, ?_⟩
          · simp [renewToken, hp, hc]
          · simp [renewToken, hp, hc]

theorem c9_witness :
    (renewToken ⟨"token", "k0", none⟩ (Except.error "boom")
      (fun _ => Except.error "x")).auth = ⟨"token", "k0", none⟩ :=
  (c9_renew_failure_preserves_auth ⟨"token", "k0", none⟩ (Except.error "boom")
    (fun _ => Except.error "x")).1 (by decide)

/-- C10: `renewToken` assumes every successfully parsed token carries a
numeric "exp" claim: if the token parses but its claims lack "exp", or
carry it with a non-numeric type, the unchecked `.(float64)` assertion
panics instead of returning an error (and the authentication is untouched),
so the renewal loop's error branch does not cover this input. -/
theorem c10_missing_exp_claim_panics (auth : Authentication) (ts : String)
    (tok : Token) (p : String → Except String Token)
    (hp : p ts = Except.ok tok)
    (hexp : lookupClaim tok.claims "exp" = none ∨
      lookupClaim tok.claims "exp" = some ClaimVal.other ∨
      ∃ s, lookupClaim tok.claims "exp" = some (ClaimVal.str s)) :
    (renewToken auth (Except.ok ts) p).outcome = RenewOutcome.panicked ∧
    (renewToken auth (Except.ok ts) p).auth = auth := by
  rcases hexp with h | h | ⟨s, h⟩ <;>
    constructor <;> simp [renewToken, hp, h]

theorem c10_witness :
    (renewToken ⟨"token", "k0", none⟩ (Except.ok "tok")
      (fun _ => Except.ok ⟨[("iss", ClaimVal.str "kontrol")]⟩)).outcome =
      RenewOutcome.panicked :=
  (c10_missing_exp_claim_panics ⟨"token", "k0", none⟩ "tok"
    ⟨[("iss", ClaimVal.str "kontrol")]⟩
    (fun _ => Except.ok ⟨[("iss", ClaimVal.str "kontrol")]⟩)
    rfl (Or.inl (by decide))).1

theorem renewRetryLoop_spec (renew race : Nat → Bool) (t0 : Int) :
    ∀ (fuel k : Nat),
      (∀ i, i < (renewRetryLoop renew race t0 k fuel).attempts.length →
        (renewRetryLoop renew race t0 k fuel).attempts[i]? =
          some (t0 + retryInterval * ((k + 1 + i : Nat) : Int))) ∧
      (∀ i, i < (renewRetryLoop renew race t0 k fuel).attempts.length →
        race (k + i) = true) ∧
      (∀ i, i + 1 < (renewRetryLoop renew race t0 k fuel).attempts.length →
        renew (k + 1 + i) = false) ∧
      ((renewRetryLoop renew race t0 k fuel).result = LoopResult.renewed →
        0 < (renewRetryLoop renew race t0 k fuel).attempts.length ∧
        renew (k + (renewRetryLoop renew race t0 k fuel).attempts.length) = true) ∧
      ((renewRetryLoop renew race t0 k fuel).result = LoopResult.disconnected →
        race (k + (renewRetryLoop renew race t0 k fuel).attempts.length) = false) := by
  intro fuel
  induction fuel with
  | zero =>
    intro k
    refine ⟨?_, ?_, ?_, ?_, ?_⟩ <;> simp [renewRetryLoop]
  | succ fuel ih =>
    intro k
    by_cases hrace : race k
    · by_cases hrenew : renew (k + 1)
      · have hdef : renewRetryLoop renew race t0 k (fuel + 1) =
            ⟨[t0 + retryInterval * ((k + 1 : Nat) : Int)], LoopResult.renewed⟩ := by
          simp [renewRetryLoop, hrace, hrenew]
        rw [hdef]
        refine ⟨?_, ?_, ?_, ?_, ?_⟩
        · intro i hi
          simp only [List.length_singleton] at hi
          interval_cases i
          simp
        · intro i hi
          simp only [List.length_singleton] at hi
          interval_cases i
          simpa using hrace
        · intro i hi
          simp only [List.length_singleton] at hi
          omega
        · intro _
          refine ⟨by simp, ?_⟩
          simpa using hrenew
        · intro h
          exact absurd h (by simp)
      · obtain ⟨ih1, ih2, ih3, ih4, ih5⟩ := ih (k + 1)
        have hdef : renewRetryLoop renew race t0 k (fuel + 1) =
            ⟨(t0 + retryInterval * ((k + 1 : Nat) : Int)) ::
              (renewRetryLoop renew race t0 (k + 1) fuel).attempts,
             (renewRetryLoop renew race t0 (k + 1) fuel).result⟩ := by
          simp [renewRetryLoop, hrace, hrenew]
        rw [hdef]
        refine ⟨?_, ?_, ?_, ?_, ?_⟩
        · intro i hi
          cases i with
          | zero => simp
          | succ j =>
            simp only [List.length_cons, Nat.succ_lt_succ_iff] at hi
            simp only [List.getElem?_cons_succ]
            rw [ih1 j hi]
            have h2 : (k + 1 + 1 + j : Nat) = k + 1 + (j + 1) := by omega
            rw [h2]
        · intro i hi
          cases i with
          | zero => simpa using hrace
          | succ j =>
            simp only [List.length_cons, Nat.succ_lt_succ_iff] at hi
            have h2 : k + (j + 1) = k + 1 + j := by omega
            rw [h2]
            exact ih2 j hi
        · intro i hi
          cases i with
          | zero => simpa using hrenew
          | succ j =>
            simp only [List.length_cons, Nat.succ_lt_succ_iff] at hi
            have h2 : k + 1 + (j + 1) = k + 1 + 1 + j := by omega
            rw [h2]
            exact ih3 j hi
        · intro hres
          have h4 := ih4 hres
          refine ⟨by simp, ?_⟩
          simp only [List.length_cons]
          have h2 : k + ((renewRetryLoop renew race t0 (k + 1) fuel).attempts.length + 1) =
              k + 1 + (renewRetryLoop renew race t0 (k + 1) fuel).attempts.length := by
            omega
          rw [h2]
          exact h4.2
        · intro hres
          have h5 := ih5 hres
          simp only [List.length_cons]
          have h2 : k + ((renewRetryLoop renew race t0 (k + 1) fuel).attempts.length + 1) =
              k + 1 + (renewRetryLoop renew race t0 (k + 1) fuel).attempts.length := by
            omega
          rw [h2]
          exact h5
    · have hdef : renewRetryLoop renew race t0 k (fuel + 1) =
          ⟨[], LoopResult.disconnected⟩ := by
        simp [renewRetryLoop, hrace]
      rw [hdef]
      refine ⟨?_, ?_, ?_, ?_, ?_⟩
      · intro i hi
        simp at hi
      · intro i hi
        simp at hi
      · intro i hi
        simp at hi
      · intro h
        exact absurd h (by simp)
      · intro _
        simpa using hrace

theorem renewTokenUntilDisconnect_spec (renew race : Nat → Bool) (t0 : Int)
    (fuel : Nat) :
    0 < (renewTokenUntilDisconnect renew race t0 fuel).attempts.length ∧
    (∀ i, i < (renewTokenUntilDisconnect renew race t0 fuel).attempts.length →
      (renewTokenUntilDisconnect renew race t0 fuel).attempts[i]? =
        some (t0 + retryInterval * (i : Int))) ∧
    (∀ i, i + 1 < (renewTokenUntilDisconnect renew race t0 fuel).attempts.length →
      renew i = false ∧ race i = true) ∧
    ((renewTokenUntilDisconnect renew race t0 fuel).result = LoopResult.renewed →
      renew ((renewTokenUntilDisconnect renew race t0 fuel).attempts.length - 1) =
        true) ∧
    ((renewTokenUntilDisconnect renew race t0 fuel).result = LoopResult.disconnected →
      race ((renewTokenUntilDisconnect renew race t0 fuel).attempts.length - 1) =
        false) := by
  by_cases hrenew0 : renew 0
  · have hdef : renewTokenUntilDisconnect renew race t0 fuel =
        ⟨[t0], LoopResult.renewed⟩ := by
      simp [renewTokenUntilDisconnect, hrenew0]
    rw [hdef]
    refine ⟨by simp, ?_, ?_, ?_, ?_⟩
    · intro i hi
      simp only [List.length_singleton] at hi
      interval_cases i
      simp
    · intro i hi
      simp only [List.length_singleton] at hi
      omega
    · intro _
      simpa using hrenew0
    · intro h
      exact absurd h (by simp)
  · obtain ⟨s1, s2, s3, s4, s5⟩ := renewRetryLoop_spec renew race t0 fuel 0
    have hdef : renewTokenUntilDisconnect renew race t0 fuel =
        ⟨t0 :: (renewRetryLoop renew race t0 0 fuel).attempts,
         (renewRetryLoop renew race t0 0 fuel).result⟩ := by
      simp [renewTokenUntilDisconnect, hrenew0]
    rw [hdef]
    refine ⟨by simp, ?_, ?_, ?_, ?_⟩
    · intro i hi
      cases i with
      | zero => simp
      | succ j =>
        simp only [List.length_cons, Nat.succ_lt_succ_iff] at hi
        simp only [List.getElem?_cons_succ]
        rw [s1 j hi]
        have h2 : (0 + 1 + j : Nat) = j + 1 := by omega
        rw [h2]
    · intro i hi
      simp only [List.length_cons, Nat.succ_lt_succ_iff] at hi
      constructor
      · cases i with
        | zero => simpa using hrenew0
        | succ j =>
          have h2 : (j + 1 : Nat) = 0 + 1 + j := by omega
          rw [h2]
          exact s3 j (by omega)
      · have h2 : (i : Nat) = 0 + i := by omega
        rw [h2]
        exact s2 i hi
    · intro hres
      have h4 := s4 hres
      simp only [List.length_cons, Nat.add_sub_cancel]
      have h2 : (renewRetryLoop renew race t0 0 fuel).attempts.length =
          0 + (renewRetryLoop renew race t0 0 fuel).attempts.length := by omega
      rw [h2]
      exact h4.2
    · intro hres
      have h5 := s5 hres
      simp only [List.length_cons, Nat.add_sub_cancel]
      have h2 : (renewRetryLoop renew race t0 0 fuel).attempts.length =
          0 + (renewRetryLoop renew race t0 0 fuel).attempts.length := by omega
      rw [h2]
      exact h5

/-- C3: for a credential expiring at instant `validUntil` the renewal loop
attempts its first renewal at `validUntil` minus 30 seconds (when the
schedule timer wins the outer race); on failure it retries at a fixed
10-second interval until a renewal succeeds or the disconnect signal fires;
when a disconnect wins any of the races the loop terminates having made no
further attempts (in particular, a disconnect during the scheduled wait
yields zero attempts); and a credential without an expiry never starts the
loop at all. -/
theorem c3_renewal_schedule (validUntil : Int) (renew race : Nat → Bool)
    (fuel : Nat) :
    (∀ auth : Authentication, auth.validUntil = none →
      startsTokenRenewer auth = false) ∧
    tokenRenewer validUntil false renew race fuel = ⟨[], LoopResult.disconnected⟩ ∧
    (0 < (tokenRenewer validUntil true renew race fuel).attempts.length ∧
     (tokenRenewer validUntil true renew race fuel).attempts[0]? =
       some (validUntil - renewalLeadTime) ∧
     (∀ i, i < (tokenRenewer validUntil true renew race fuel).attempts.length →
       (tokenRenewer validUntil true renew race fuel).attempts[i]? =
         some (validUntil - renewalLeadTime + retryInterval * (i : Int))) ∧
     (∀ i, i + 1 < (tokenRenewer validUntil true renew race fuel).attempts.length →
       renew i = false ∧ race i = true) ∧
     ((tokenRenewer validUntil true renew race fuel).result = LoopResult.renewed →
       renew ((tokenRenewer validUntil true renew race fuel).attempts.length - 1) =
         true) ∧
     ((tokenRenewer validUntil true renew race fuel).result =
         LoopResult.disconnected →
       race ((tokenRenewer validUntil true renew race fuel).attempts.length - 1) =
         false)) := by
  have hdef : tokenRenewer validUntil true renew race fuel =
      renewTokenUntilDisconnect renew race (validUntil - renewalLeadTime) fuel := rfl
  obtain ⟨s0, s1, s2, s3, s4⟩ :=
    renewTokenUntilDisconnect_spec renew race (validUntil - renewalLeadTime) fuel
  refine ⟨?_, rfl, ?_, ?_, ?_, ?_, ?_, ?_⟩
  · intro auth h
    simp [startsTokenRenewer, h]
  · rw [hdef]
    exact s0
  · rw [hdef]
    simpa using s1 0 s0
  · intro i hi
    rw [hdef] at hi ⊢
    exact s1 i hi
  · intro i hi
    rw [hdef] at hi
    exact s2 i hi
  · intro h
    rw [hdef] at h ⊢
    exact s3 h
  · intro h
    rw [hdef] at h ⊢
    exact s4 h

theorem c3_witness :
    (tokenRenewer (100 * Second) true (fun _ => false) (fun _ => true) 2).attempts[2]? =
      some (100 * Second - renewalLeadTime + retryInterval * ((2 : Nat) : Int)) :=
  (c3_renewal_schedule (100 * Second) (fun _ => false) (fun _ => true) 2).2.2.2.2.1
    2 (by decide)

end Kite
